import Mathlib

/-!
# Verification of the OSINT aggregation utility

A shallow embedding of the `osint` utility module (lookupIP, lookupDomain,
lookupEmail, lookupUsername, scoreDomainRisk, scoreEmailRisk) together with
theorems settling the specification claims about it.

Modelling conventions:
* JSON-decoded JavaScript values are modelled by the inductive `JVal`
  (numbers as `Int`; none of the verified properties perform numeric
  arithmetic).
* A network fetch outcome is an `Option JVal`: `none` models a rejected
  `fetchJSON` promise (transport failure or non-success HTTP status),
  `some v` a fulfilled promise with decoded payload `v`.
* JavaScript property access `x.k` throws a TypeError when `x` is `null` or
  `undefined`; this is modelled by `JVal.get` returning `Except`.  Where the
  source only performs an access after guarding the receiver (truthiness
  check, or an optional-chaining `?.`), the total `JVal.optGet` is used.
* Thrown exceptions are modelled by `Except JsErr`; `JsErr.invalidEmail` is
  the `new Error('Invalid email')` thrown by `lookupEmail`, and
  `JsErr.typeError` any TypeError arising from property access on a nullish
  value or from calling `.map` on a non-array.
* `String.toLowerCase`/`trim` are modelled over the JS character classes via
  `jsToLower`/`jsTrim` (ASCII case mapping; the verified claims only involve
  ASCII data).
-/

/-- JSON-decoded JavaScript runtime value (plus `undefined`). -/
inductive JVal where
  | jnull
  | jundefined
  | jbool (b : Bool)
  | jnum (n : Int)
  | jstr (s : String)
  | jarr (elems : List JVal)
  | jobj (fields : List (String × JVal))

/-- Errors thrown by the embedded code. -/
inductive JsErr where
  | typeError
  | invalidEmail
deriving DecidableEq

/-- JavaScript truthiness of a value. -/
def JVal.truthy : JVal → Bool
  | .jnull => false
  | .jundefined => false
  | .jbool b => b
  | .jnum n => n != 0
  | .jstr s => s != ""
  | .jarr _ => true
  | .jobj _ => true

/-- Is the value `null` or `undefined`? -/
def JVal.isNullish : JVal → Bool
  | .jnull => true
  | .jundefined => true
  | _ => false

/-- Property access `v.k`: throws a TypeError on `null`/`undefined`,
yields `undefined` for an absent key or a primitive receiver. -/
def JVal.get (v : JVal) (k : String) : Except JsErr JVal :=
  match v with
  | .jnull => .error .typeError
  | .jundefined => .error .typeError
  | .jobj fields =>
    match fields.lookup k with
    | some x => .ok x
    | none => .ok .jundefined
  | _ => .ok .jundefined

/-- Guarded property access: `v?.k`, and also plain `v.k` at places where the
source has already established that `v` is not nullish.  Total. -/
def JVal.optGet (v : JVal) (k : String) : JVal :=
  match v with
  | .jobj fields =>
    match fields.lookup k with
    | some x => x
    | none => .jundefined
  | _ => .jundefined

/-- Strict equality test against a string literal (`v === 's'`). -/
def JVal.isStr (v : JVal) (s : String) : Bool :=
  match v with
  | .jstr t => t == s
  | _ => false

/-- Strict equality test against `false` (`v === false`). -/
def JVal.isFalse : JVal → Bool
  | .jbool false => true
  | _ => false

/-- JavaScript `a || b` (value-returning or). -/
def jsOr (a b : JVal) : JVal :=
  if a.truthy then a else b

/-- The character class of the JS regexp `\s` (also the set trimmed by
`String.prototype.trim`). -/
def jsWs (c : Char) : Bool :=
  [0x9, 0xa, 0xb, 0xc, 0xd, 0x20, 0xa0, 0x1680, 0x2000, 0x2001, 0x2002,
   0x2003, 0x2004, 0x2005, 0x2006, 0x2007, 0x2008, 0x2009, 0x200a, 0x2028,
   0x2029, 0x202f, 0x205f, 0x3000, 0xfeff].contains c.toNat

/-- The character class of the JS regexp `.` (anything but a line
terminator). -/
def jsDot (c : Char) : Bool :=
  !([0xa, 0xd, 0x2028, 0x2029].contains c.toNat)

/-- JS `String.prototype.trim`. -/
def jsTrim (s : String) : String :=
  String.mk (((s.data.dropWhile jsWs).reverse.dropWhile jsWs).reverse)

/-- JS `String.prototype.toLowerCase` (ASCII case mapping). -/
def jsToLower (s : String) : String :=
  String.mk (s.data.map Char.toLower)

/-- Is `pat` a contiguous sublist of `l`? -/
def listInfix (pat : List Char) : List Char → Bool
  | [] => pat.isEmpty
  | c :: rest => pat.isPrefixOf (c :: rest) || listInfix pat rest

/-- JS `String.prototype.includes`. -/
def strContains (s pat : String) : Bool :=
  listInfix pat.data s.data

mutual
/-- JS `String(v)` coercion. -/
def jsToString : JVal → String
  | .jnull => "null"
  | .jundefined => "undefined"
  | .jbool true => "true"
  | .jbool false => "false"
  | .jnum n => toString n
  | .jstr s => s
  | .jarr xs => jsArrJoin xs
  | .jobj _ => "[object Object]"

/-- `Array.prototype.toString`: elements joined by `","`, with nullish
elements rendered as the empty string. -/
def jsArrJoin : List JVal → String
  | [] => ""
  | [.jnull] => ""
  | [.jundefined] => ""
  | [x] => jsToString x
  | .jnull :: x :: xs => "," ++ jsArrJoin (x :: xs)
  | .jundefined :: x :: xs => "," ++ jsArrJoin (x :: xs)
  | x :: y :: xs => jsToString x ++ "," ++ jsArrJoin (y :: xs)
end

/-- JS `String.prototype.split` with a single-character separator, on char
lists (`"".split(sep)` is `[""]`, i.e. `[[]]`). -/
def splitOnChar (sep : Char) : List Char → List (List Char)
  | [] => [[]]
  | c :: rest =>
    let r := splitOnChar sep rest
    if c = sep then [] :: r
    else
      match r with
      | [] => [[c]]
      | g :: gs => (c :: g) :: gs

/-- Strip one trailing `'.'` if present (`.replace(/\.$/, '')`). -/
def stripTrailingDot (s : String) : String :=
  if s.data.getLast? = some '.' then String.mk s.data.dropLast else s

/-- `.replace(/^"|"$/g, '')`: remove one leading and one trailing `'"'`
character, each if present. -/
def stripQuotes (s : String) : String :=
  let cs := s.data
  let cs := if cs.head? = some '"' then cs.tail else cs
  let cs := if cs.getLast? = some '"' then cs.dropLast else cs
  String.mk cs

/-! ## IP Aggregator (`lookupIP`) -/

/-- The record type `IPLookup`; scalar fields hold raw JS values and default
to `undefined` (absent). -/
structure IPLookup where
  ip : JVal := .jundefined
  city : JVal := .jundefined
  region : JVal := .jundefined
  country : JVal := .jundefined
  lat : JVal := .jundefined
  lon : JVal := .jundefined
  isp : JVal := .jundefined
  org : JVal := .jundefined
  asn : JVal := .jundefined
  reverse : JVal := .jundefined
  timezone : JVal := .jundefined
  proxy : JVal := .jundefined
  hosting : JVal := .jundefined
  sources : List (String × JVal) := []

/-- Assignment `m[k] = v` on a string-keyed object, preserving insertion
order. -/
def setKey (m : List (String × JVal)) (k : String) (v : JVal) : List (String × JVal) :=
  match m with
  | [] => [(k, v)]
  | (k', v') :: rest => if k' = k then (k, v) :: rest else (k', v') :: setKey rest k v

/-- The `ipapi.status === 'fulfilled'` branch of `lookupIP`: record the raw
payload under `sources['ip-api.com']`, then, unless `d.status !== 'fail'`
fails, apply all of provider A's fields unconditionally. -/
def applyIpApi (d : JVal) (out : IPLookup) : Except JsErr IPLookup :=
  let out1 := { out with sources := setKey out.sources "ip-api.com" d }
  match d.get "status" with
  | .error e => .error e
  | .ok st =>
    if st.isStr "fail" then .ok out1
    else
      .ok { out1 with
        ip := d.optGet "query"
        city := d.optGet "city"
        region := d.optGet "regionName"
        country := d.optGet "country"
        lat := d.optGet "lat"
        lon := d.optGet "lon"
        isp := d.optGet "isp"
        org := d.optGet "org"
        asn := d.optGet "as"
        reverse := d.optGet "reverse"
        timezone := d.optGet "timezone" }

/-- The `ipwho.status === 'fulfilled' && ipwho.value.success !== false`
branch of `lookupIP`: record the raw payload under `sources['ipwho.is']`
and fill only still-falsy fields (`out.f || w.f`). -/
def applyIpWho (w : JVal) (out : IPLookup) : Except JsErr IPLookup :=
  match w.get "success" with
  | .error e => .error e
  | .ok succ =>
    if succ.isFalse then .ok out
    else
      let out1 := { out with sources := setKey out.sources "ipwho.is" w }
      let conn := w.optGet "connection"
      .ok { out1 with
        ip := jsOr out1.ip (w.optGet "ip")
        city := jsOr out1.city (w.optGet "city")
        region := jsOr out1.region (w.optGet "region")
        country := jsOr out1.country (w.optGet "country")
        lat := jsOr out1.lat (w.optGet "latitude")
        lon := jsOr out1.lon (w.optGet "longitude")
        isp := jsOr out1.isp (jsOr (conn.optGet "isp") (conn.optGet "org"))
        org := jsOr out1.org (conn.optGet "org")
        asn := jsOr out1.asn
          (if (conn.optGet "asn").truthy then
             .jstr ("AS" ++ jsToString (conn.optGet "asn"))
           else .jundefined)
        timezone := jsOr out1.timezone ((w.optGet "timezone").optGet "id") }

/-- `lookupIP`, as a function of the two settled fetch outcomes
(`Promise.allSettled([fetchJSON(ipApiUrl), fetchJSON(ipWhoUrl)])`). -/
def lookupIP (ipapi ipwho : Option JVal) : Except JsErr IPLookup :=
  match (match ipapi with
         | none => Except.ok ({} : IPLookup)
         | some d => applyIpApi d {}) with
  | .error e => .error e
  | .ok out1 =>
    match ipwho with
    | none => .ok out1
    | some w => applyIpWho w out1

/-! ## DNS Resolver Adapter and Domain Aggregator -/

/-- An MX record as parsed by `lookupDomain`. -/
structure MXRec where
  priority : Nat
  exchange : String
deriving DecidableEq

/-- `dohResolve(name, type)` as a function of its fetch outcome:
on any fetch failure return `[]`, otherwise `json.Answer || []`
(the property access is inside the `try`, so a nullish payload also
yields `[]`). -/
def dohResolve (fetched : Option JVal) : JVal :=
  match fetched with
  | none => .jarr []
  | some json =>
    match json.get "Answer" with
    | .error _ => .jarr []
    | .ok ans => if ans.truthy then ans else .jarr []

/-- `xs.map((r) => g(r.data))` on the elements of an array: the callback
runs left to right and the first TypeError (nullish element) propagates. -/
def mapData (g : JVal → β) : List JVal → Except JsErr (List β)
  | [] => .ok []
  | r :: rs =>
    match r.get "data" with
    | .error e => .error e
    | .ok d =>
      match mapData g rs with
      | .error e => .error e
      | .ok ds => .ok (g d :: ds)

/-- `answers.map((r) => g(r.data))`: throws a TypeError when `answers` is not
an array (`.map` is not a function) or when an element is nullish. -/
def mapAnswers (v : JVal) (g : JVal → β) : Except JsErr (List β) :=
  match v with
  | .jarr xs => mapData g xs
  | _ => .error .typeError

/-- Value of one TXT answer: `typeof a.data === 'string' ?
a.data.replace(/^"|"$/g, '') : ''`. -/
def txtData (d : JVal) : String :=
  match d with
  | .jstr s => stripQuotes s
  | _ => ""

/-- `parseTXT`: map `txtData` over the answers and drop falsy (empty)
results. -/
def parseTXT (v : JVal) : Except JsErr (List String) :=
  (mapAnswers v txtData).map (·.filter (· ≠ ""))

/-- `parseInt(s, 10)` on a non-empty digit string. -/
def digitsVal (cs : List Char) : Nat :=
  cs.foldl (fun n c => n * 10 + (c.toNat - '0'.toNat)) 0

/-- `/^(\d+)\s+(.+)\.?$/.exec(data)` followed by
`{ priority: parseInt(m[1], 10), exchange: m[2].replace(/\.$/, '') }`.

The regexp matches iff the input is a non-empty digit run, then a non-empty
whitespace run, then a non-empty line-terminator-free remainder; `(.+)` is
greedy, so `\.?` always matches the empty string and `m[2]` is the whole
remainder.  When the input ends in whitespace (empty remainder), the engine
backtracks `\s+` by exactly one character, which then must be matchable by
`.`. -/
def mxExec (s : String) : Option MXRec :=
  let cs := s.data
  let digits := cs.takeWhile Char.isDigit
  let rest := cs.dropWhile Char.isDigit
  let ws := rest.takeWhile jsWs
  let host := rest.dropWhile jsWs
  if digits.isEmpty || ws.isEmpty then none
  else if !host.isEmpty then
    if host.all jsDot then some ⟨digitsVal digits, stripTrailingDot (String.mk host)⟩
    else none
  else
    match ws.getLast? with
    | some c => if jsDot c then some ⟨digitsVal digits, stripTrailingDot (String.mk [c])⟩ else none
    | none => none

/-- The record type `DomainLookup` (optional fields as in the source
interface; `lookupDomain` populates all of them). -/
structure DomainLookup where
  domain : String
  a : Option (List JVal) := none
  aaaa : Option (List JVal) := none
  mx : Option (List MXRec) := none
  ns : Option (List String) := none
  txt : Option (List String) := none
  dmarc : Option String := none
  spf : Option Bool := none
  rdap : JVal := .jundefined

/-- The seven upstream fetch outcomes consumed by one `lookupDomain` call:
DoH queries A, AAAA, MX, NS, TXT for the domain, TXT for `_dmarc.<domain>`,
and the RDAP lookup. -/
structure DomainEnv where
  a : Option JVal := none
  aaaa : Option JVal := none
  mx : Option JVal := none
  ns : Option JVal := none
  txt : Option JVal := none
  dmarcTxt : Option JVal := none
  rdap : Option JVal := none

/-- `lookupDomain`, as a function of the seven upstream outcomes.  The six
DoH calls and the RDAP call each swallow their own fetch failure; the
subsequent parsing (`.map` over the answers) happens outside any
`try`/`catch` and may throw. -/
def lookupDomain (domain : String) (env : DomainEnv) : Except JsErr DomainLookup :=
  let a := dohResolve env.a
  let aaaa := dohResolve env.aaaa
  let mxv := dohResolve env.mx
  let nsv := dohResolve env.ns
  let txtv := dohResolve env.txt
  let dmarcv := dohResolve env.dmarcTxt
  let rdap := match env.rdap with
              | some v => v
              | none => .jnull
  match mapAnswers a id with
  | .error e => .error e
  | .ok aL =>
  match mapAnswers aaaa id with
  | .error e => .error e
  | .ok aaaaL =>
  match mapAnswers mxv (fun d => mxExec (jsToString d)) with
  | .error e => .error e
  | .ok mxL =>
  match mapAnswers nsv (fun d => stripTrailingDot (jsToString d)) with
  | .error e => .error e
  | .ok nsL =>
  match parseTXT txtv with
  | .error e => .error e
  | .ok txtL =>
  match parseTXT dmarcv with
  | .error e => .error e
  | .ok dmarcL =>
    .ok { domain := domain
          a := some (aL.filter JVal.truthy)
          aaaa := some (aaaaL.filter JVal.truthy)
          mx := some mxL.reduceOption
          ns := some (nsL.filter (· ≠ ""))
          txt := some txtL
          dmarc := dmarcL.find? (fun t => strContains (jsToLower t) "v=dmarc")
          spf := some (txtL.any (fun t => strContains (jsToLower t) "v=spf1"))
          rdap := rdap }

/-! ## Email Aggregator (`lookupEmail`) -/

/-- The record type `EmailLookup`. -/
structure EmailLookup where
  email : String
  domain : String
  hasMX : Bool
  hasSPF : Bool
  hasDMARC : Bool
  dmarcPolicy : Option String
  txtSamples : Option (List String) := none

/-- Truthiness of a `string | null` field (`!!x`). -/
def strOptTruthy : Option String → Bool
  | some s => s != ""
  | none => false

/-- Characters allowed in the `p=` tag value: the class `[^;\s]`. -/
def pTagValid (c : Char) : Bool :=
  !(c == ';' || jsWs c)

/-- `/p=([^;\s]+)/i.exec(s)?.[1]`: leftmost occurrence of `p`/`P` followed by
`=` and at least one character that is neither `;` nor whitespace; the
captured group is the maximal such run. -/
def pTagExtract : List Char → Option String
  | [] => none
  | c :: rest =>
    if c = 'p' ∨ c = 'P' then
      match rest with
      | c2 :: rest2 =>
        if c2 = '=' then
          let v := rest2.takeWhile pTagValid
          if v.isEmpty then pTagExtract rest else some (String.mk v)
        else pTagExtract rest
      | [] => pTagExtract rest
    else pTagExtract rest

/-- `dom.dmarc ? /p=([^;\s]+)/i.exec(dom.dmarc)?.[1] || null : null`. -/
def extractDmarcPolicy (dmarc : Option String) : Option String :=
  match dmarc with
  | none => none
  | some s => if s = "" then none else pTagExtract s.data

/-- `email.split('@')[1]`. -/
def emailSecondSegment (email : String) : Option String :=
  ((splitOnChar '@' email.data).get? 1).map String.mk

/-- `lookupEmail`, as a function of the upstream outcomes consumed by the
delegated `lookupDomain` call.  The `@`-split validation happens before any
of those outcomes is consulted. -/
def lookupEmail (email : String) (env : DomainEnv) : Except JsErr EmailLookup :=
  match emailSecondSegment email with
  | none => .error .invalidEmail
  | some seg =>
    let domain := jsToLower (jsTrim seg)
    if domain = "" then .error .invalidEmail
    else
      match lookupDomain domain env with
      | .error e => .error e
      | .ok dom =>
        .ok { email := email
              domain := domain
              hasMX := (match dom.mx with
                        | some l => l.length
                        | none => 0) > 0
              hasSPF := (match dom.spf with
                         | some b => b
                         | none => false)
              hasDMARC := strOptTruthy dom.dmarc
              dmarcPolicy := extractDmarcPolicy dom.dmarc
              txtSamples := dom.txt.map (·.take 5) }

/-! ## Username Prober (`lookupUsername`) -/

/-- A settled promise outcome (`Promise.allSettled` slot). -/
inductive Settled (α : Type) where
  | fulfilled (value : α)
  | rejected

/-- Map over the fulfilled value of a settled outcome. -/
def Settled.map (f : α → β) : Settled α → Settled β
  | .fulfilled v => .fulfilled (f v)
  | .rejected => .rejected

/-- `s.status === 'fulfilled' ? s.value : null`. -/
def settledToOption : Settled α → Option α
  | .fulfilled v => some v
  | .rejected => none

/-- The record type `UsernameProfile` (`existsB` models the source field
`exists`, a reserved word in Lean). -/
structure UsernameProfile where
  platform : String
  existsB : Bool
  url : String
  data : Option JVal := none

/-- `arr.find(p)` with a predicate that may throw. -/
def jsFind (p : JVal → Except JsErr Bool) : List JVal → Except JsErr (Option JVal)
  | [] => .ok none
  | x :: xs =>
    match p x with
    | .error e => .error e
    | .ok true => .ok (some x)
    | .ok false => jsFind p xs

/-- The GitHub probe task body, as a function of its fetch outcome. -/
def taskGitHub (username : String) (f : Option JVal) : UsernameProfile :=
  let fallback : UsernameProfile :=
    { platform := "GitHub", existsB := false, url := "https://github.com/" ++ username }
  match f with
  | none => fallback
  | some data =>
    if data.truthy && (data.optGet "login").truthy then
      { platform := "GitHub", existsB := true, url := "https://github.com/" ++ username,
        data := some data }
    else fallback

/-- The GitLab probe task body: find the array element whose `username`
case-insensitively equals the query (a throw inside the callback is caught
by the task's own `try`). -/
def taskGitLab (username : String) (f : Option JVal) : UsernameProfile :=
  let fallback : UsernameProfile :=
    { platform := "GitLab", existsB := false, url := "https://gitlab.com/" ++ username }
  match f with
  | none => fallback
  | some arr =>
    match arr with
    | .jarr xs =>
      match jsFind (fun x =>
          match x.get "username" with
          | .error e => .error e
          | .ok u => .ok (jsToLower (jsToString u) == jsToLower username)) xs with
      | .error _ => fallback
      | .ok none => fallback
      | .ok (some u) =>
        if u.truthy then
          { platform := "GitLab", existsB := true, url := "https://gitlab.com/" ++ username,
            data := some u }
        else fallback
    | _ => fallback

/-- The Reddit probe task body: requires `data.data.name` truthy; the result
`data` field is the inner `data` object. -/
def taskReddit (username : String) (f : Option JVal) : UsernameProfile :=
  let fallback : UsernameProfile :=
    { platform := "Reddit", existsB := false, url := "https://www.reddit.com/user/" ++ username }
  match f with
  | none => fallback
  | some data =>
    if data.truthy && (data.optGet "data").truthy
        && ((data.optGet "data").optGet "name").truthy then
      { platform := "Reddit", existsB := true,
        url := "https://www.reddit.com/user/" ++ username,
        data := some (data.optGet "data") }
    else fallback

/-- The StackOverflow probe task body: `exists` is "items is a non-empty
array", refined by an exact display-name match; the full payload is attached
whenever the call succeeded.  A throw (nullish payload or element) falls back
to the not-exists profile. -/
def taskStackOverflow (username : String) (f : Option JVal) : UsernameProfile :=
  let url := "https://stackoverflow.com/users?tab=Reputation&search=" ++ username
  let fallback : UsernameProfile := { platform := "StackOverflow", existsB := false, url := url }
  match f with
  | none => fallback
  | some data =>
    match data.get "items" with
    | .error _ => fallback
    | .ok items =>
      let e := match items with
               | .jarr xs => xs.length > 0
               | _ => false
      let exact : Except JsErr (Option JVal) :=
        if e then
          match items with
          | .jarr xs =>
            jsFind (fun x =>
              match x.get "display_name" with
              | .error err => .error err
              | .ok dn => .ok (jsToLower (jsToString dn) == jsToLower username)) xs
          | _ => .ok none
        else .ok none
      match exact with
      | .error _ => fallback
      | .ok ex =>
        { platform := "StackOverflow",
          existsB := (match ex with
                      | some v => v.truthy
                      | none => false) || e,
          url := url, data := some data }

/-- `lookupUsername`: the settle-all join over the four probe tasks.  Each
slot is the settled outcome of the corresponding task: `fulfilled f` means
the task ran to completion on fetch outcome `f`, `rejected` a task whose
async execution raised an unhandled condition.  The join maps fulfilled
slots to their values and `rejected` to `null`, then `filter(Boolean)`
drops the nulls (a returned profile record is an object, hence truthy). -/
def lookupUsername (username : String) (r1 r2 r3 r4 : Settled (Option JVal)) :
    List UsernameProfile :=
  ([Settled.map (taskGitHub username) r1,
    Settled.map (taskGitLab username) r2,
    Settled.map (taskReddit username) r3,
    Settled.map (taskStackOverflow username) r4].map settledToOption).reduceOption

/-! ## Risk Scorers -/

/-- The three-level risk label. -/
inductive RiskLevel where
  | low
  | medium
  | high
deriving DecidableEq

/-- `scoreDomainRisk`: `high` when `!dom.a?.length`, else `medium` when
`!((dom.mx?.length || 0) > 0)` or `!dom.dmarc` (truthiness), else `low`. -/
def scoreDomainRisk (dom : DomainLookup) : RiskLevel :=
  if (match dom.a with
      | some l => l.length
      | none => 0) = 0 then .high
  else
    let hasMX := (match dom.mx with
                  | some l => l.length
                  | none => 0) > 0
    let hasDMARC := strOptTruthy dom.dmarc
    if !hasMX || !hasDMARC then .medium
    else .low

/-- `scoreEmailRisk`. -/
def scoreEmailRisk (email : EmailLookup) : RiskLevel :=
  if !email.hasMX then .high
  else if !email.hasDMARC then .medium
  else .low

/-! ## Claim-side definitions -/

/-- Spec-side domain-risk rule, following the amended claim wording: `high`
when the `a` list is empty or absent; otherwise `medium` when the `mx` list
is empty or absent or `dmarc` is absent or the empty string; otherwise
`low`. -/
def domainRiskAmended (dom : DomainLookup) : RiskLevel :=
  match dom.a with
  | none => .high
  | some [] => .high
  | some (_ :: _) =>
    if dom.mx = none ∨ dom.mx = some [] ∨ dom.dmarc = none ∨ dom.dmarc = some "" then .medium
    else .low

/-- A DoH response shape on which `lookupDomain`'s answer processing cannot
throw: the resolved answer value is an array with no nullish element. -/
def dohWellShaped (f : Option JVal) : Bool :=
  match dohResolve f with
  | .jarr xs => xs.all (fun x => !x.isNullish)
  | _ => false

/-- Spec-side MX answer grammar, following the claim wording: one or more
digits, then whitespace, then a non-empty line-terminator-free hostname;
`priority` is the parsed integer and `exchange` the hostname with a trailing
dot stripped; anything else does not parse. -/
def mxGrammarParse (s : String) : Option MXRec :=
  let cs := s.data
  let digits := cs.takeWhile Char.isDigit
  let rest := cs.dropWhile Char.isDigit
  let ws := rest.takeWhile jsWs
  let host := rest.dropWhile jsWs
  if digits.isEmpty || ws.isEmpty || host.isEmpty || !host.all jsDot then none
  else some ⟨digitsVal digits, stripTrailingDot (String.mk host)⟩

/-- Upstream outcomes whose `_dmarc` TXT answer is the claim's example DMARC
record (all other upstreams fail). -/
def envDM7 : DomainEnv :=
  { dmarcTxt := some (.jobj [("Answer", .jarr [.jobj [("data",
      .jstr "\"v=DMARC1; p=reject; rua=mailto:x@example.com\"")]])]) }

/-- Upstream outcomes whose MX answer list is the claim's example
`[{data:"10 mail.example.com."}]` (all other upstreams fail). -/
def envMX8 : DomainEnv :=
  { mx := some (.jobj [("Answer", .jarr [.jobj [("data", .jstr "10 mail.example.com.")]])]) }

/-- Upstream outcomes whose single MX answer has the data `"10  "` (digits,
then only whitespace): the regex `\s+` backtracks by one character and the
code keeps the pair `{priority: 10, exchange: " "}`, although the grammar of
the claim has no hostname to match (all other upstreams fail). -/
def envMX8bad : DomainEnv :=
  { mx := some (.jobj [("Answer", .jarr [.jobj [("data", .jstr "10  ")]])]) }

/-- A `DomainLookup` with a non-empty `a` list, a non-empty `mx` list and a
present (but empty-string) `dmarc` value. -/
def c9Dom : DomainLookup :=
  { domain := "d", a := some [.jstr "1.1.1.1"], mx := some [⟨10, "m"⟩], dmarc := some "" }

/-! ## Claim theorems -/

/-- Claim C10: `scoreEmailRisk` depends only on `hasMX` and `hasDMARC`; any
two `EmailLookup` records agreeing on those two fields receive the same
`RiskLevel`, whatever their email, domain, `hasSPF`, `dmarcPolicy` and
`txtSamples`. -/
theorem claim_C10_email_risk_noninterference (e1 e2 : EmailLookup)
    (hmx : e1.hasMX = e2.hasMX) (hdm : e1.hasDMARC = e2.hasDMARC) :
    scoreEmailRisk e1 = scoreEmailRisk e2 := by
  simp only [scoreEmailRisk, hmx, hdm]

/-- Witness for C10: two records agreeing only on `hasMX`/`hasDMARC` and
differing in every other field receive the same risk label. -/
theorem claim_C10_email_risk_noninterference_witness :
    scoreEmailRisk
      { email := "a@x.com", domain := "x.com", hasMX := true, hasSPF := true,
        hasDMARC := false, dmarcPolicy := some "reject", txtSamples := some ["t"] } =
    scoreEmailRisk
      { email := "b@y.org", domain := "y.org", hasMX := true, hasSPF := false,
        hasDMARC := false, dmarcPolicy := none, txtSamples := none } :=
  claim_C10_email_risk_noninterference _ _ rfl rfl

/-- Counterexample to claim C9 as stated: `c9Dom` has a non-empty `a` list,
a non-empty `mx` list and a present (non-absent) `dmarc`, so the claim
predicts `low`, but `scoreDomainRisk` tests `dmarc` for truthiness and the
empty string is falsy, giving `medium`. -/
theorem claim_C9_counterexample :
    c9Dom.a = some [.jstr "1.1.1.1"] ∧ c9Dom.mx = some [⟨10, "m"⟩] ∧
    c9Dom.dmarc ≠ none ∧ scoreDomainRisk c9Dom = .medium := by
  refine ⟨rfl, rfl, ?_, rfl⟩
  intro h
  simp [c9Dom] at h

/-- Claim C9 (amended): `scoreDomainRisk` returns `high` when `a` is empty
or absent, otherwise `medium` when `mx` is empty or absent or `dmarc` is
absent or empty, otherwise `low`; it is total on every `DomainLookup`. -/
theorem claim_C9_domain_risk (dom : DomainLookup) :
    scoreDomainRisk dom = domainRiskAmended dom := by
  unfold scoreDomainRisk domainRiskAmended
  rcases ha : dom.a with _ | ⟨_ | ⟨x, l⟩⟩ <;>
    rcases hmx : dom.mx with _ | ⟨_ | ⟨m, ml⟩⟩ <;>
      rcases hdm : dom.dmarc with _ | s <;>
        simp [strOptTruthy]

theorem taskGitHub_platform (u : String) (f : Option JVal) :
    (taskGitHub u f).platform = "GitHub" := by
  unfold taskGitHub
  cases f
  · rfl
  · dsimp only
    split <;> rfl

theorem taskGitLab_platform (u : String) (f : Option JVal) :
    (taskGitLab u f).platform = "GitLab" := by
  unfold taskGitLab
  cases f
  · rfl
  · dsimp only
    split
    · split
      · rfl
      · rfl
      · split <;> rfl
    · rfl

theorem taskReddit_platform (u : String) (f : Option JVal) :
    (taskReddit u f).platform = "Reddit" := by
  unfold taskReddit
  cases f
  · rfl
  · dsimp only
    split <;> rfl

theorem taskStackOverflow_platform (u : String) (f : Option JVal) :
    (taskStackOverflow u f).platform = "StackOverflow" := by
  unfold taskStackOverflow
  cases f
  · rfl
  · dsimp only
    split
    · rfl
    · split
      · rfl
      · rfl

/-- Claim C4: `lookupUsername` is a settle-all join over the four platform
probes.  First conjunct: for every combination of per-task settled outcomes
the returned sequence lists, in the fixed order GitHub, GitLab, Reddit,
StackOverflow, exactly the platforms whose task settled (a rejected task is
dropped); the function is total, so the call as a whole never rejects.
Second conjunct: when task 3 (Reddit) raises while tasks 1, 2, 4 settle,
the result is exactly the three settled profiles, in order. -/
theorem claim_C4_username_settle_all (username : String) :
    (∀ r1 r2 r3 r4 : Settled (Option JVal),
       (lookupUsername username r1 r2 r3 r4).map UsernameProfile.platform =
         [(r1, "GitHub"), (r2, "GitLab"), (r3, "Reddit"), (r4, "StackOverflow")].filterMap
           (fun rp => match rp.1 with
                      | .fulfilled _ => some rp.2
                      | .rejected => none))
    ∧ (∀ f1 f2 f4 : Option JVal,
         lookupUsername username (.fulfilled f1) (.fulfilled f2) .rejected (.fulfilled f4) =
           [taskGitHub username f1, taskGitLab username f2, taskStackOverflow username f4]) := by
  constructor
  · intro r1 r2 r3 r4
    cases r1 <;> cases r2 <;> cases r3 <;> cases r4 <;>
      simp [lookupUsername, Settled.map, settledToOption, List.reduceOption,
            taskGitHub_platform, taskGitLab_platform, taskReddit_platform,
            taskStackOverflow_platform]
  · intro f1 f2 f4
    rfl

theorem lookup_setKey_self (m : List (String × JVal)) (k : String) (v : JVal) :
    (setKey m k v).lookup k = some v := by
  induction m with
  | nil => simp [setKey, List.lookup]
  | cons p rest ih =>
    obtain ⟨k', v'⟩ := p
    by_cases h : k' = k
    · subst h
      simp [setKey, List.lookup]
    · have hb : (k == k') = false := beq_eq_false_iff_ne.mpr (Ne.symm h)
      simp [setKey, h, List.lookup, hb, ih]

theorem lookup_setKey_other (m : List (String × JVal)) (k k' : String) (v : JVal)
    (h : k' ≠ k) : (setKey m k v).lookup k' = m.lookup k' := by
  have hb : (k' == k) = false := beq_eq_false_iff_ne.mpr h
  induction m with
  | nil => simp [setKey, List.lookup, hb]
  | cons p rest ih =>
    obtain ⟨k0, v0⟩ := p
    by_cases h0 : k0 = k
    · subst h0
      simp [setKey, List.lookup, hb]
    · by_cases h1 : k' = k0
      · subst h1
        simp [setKey, h0, List.lookup]
      · have hb1 : (k' == k0) = false := beq_eq_false_iff_ne.mpr h1
        simp [setKey, h0, List.lookup, hb1, ih]

theorem applyIpApi_sources (d : JVal) (out r : IPLookup)
    (h : applyIpApi d out = .ok r) :
    r.sources = setKey out.sources "ip-api.com" d := by
  unfold applyIpApi at h
  rcases hg : d.get "status" with e | st <;> rw [hg] at h
  · exact Except.noConfusion h
  · dsimp only at h
    split at h <;> (cases h; rfl)

theorem applyIpWho_sources (w : JVal) (out r : IPLookup)
    (h : applyIpWho w out = .ok r) :
    r.sources = out.sources ∨ r.sources = setKey out.sources "ipwho.is" w := by
  unfold applyIpWho at h
  rcases hg : w.get "success" with e | succ <;> rw [hg] at h
  · exact Except.noConfusion h
  · dsimp only at h
    split at h
    · cases h
      exact Or.inl rfl
    · cases h
      exact Or.inr rfl

theorem applyIpWho_sources_applied (w : JVal) (out r : IPLookup) (succ : JVal)
    (hg : w.get "success" = .ok succ) (hs : succ.isFalse = false)
    (h : applyIpWho w out = .ok r) :
    r.sources = setKey out.sources "ipwho.is" w := by
  unfold applyIpWho at h
  rw [hg] at h
  dsimp only at h
  rw [hs] at h
  simp only [Bool.false_eq_true, if_false] at h
  cases h
  rfl

/-- Counterexample to claim C5 as stated: the ipwho.is fetch is fulfilled
(with payload `{success: false}`), yet the returned record's `sources` is
empty — the payload of a fulfilled provider-B response whose internal status
marks a failure is not retained. -/
theorem claim_C5_counterexample :
    lookupIP none (some (.jobj [("success", .jbool false)])) = .ok {} ∧
    (({} : IPLookup).sources.lookup "ipwho.is" = none) :=
  ⟨rfl, rfl⟩

/-- Claim C5 (amended): a fulfilled ip-api.com response is always retained
verbatim under `sources['ip-api.com']` (even when its internal status is the
failure sentinel), while a fulfilled ipwho.is response is retained verbatim
under `sources['ipwho.is']` only when its `success` field is not `false`. -/
theorem claim_C5_sources_retention :
    (∀ (fsA : List (String × JVal)) (ipwho : Option JVal) (r : IPLookup),
       lookupIP (some (.jobj fsA)) ipwho = .ok r →
       r.sources.lookup "ip-api.com" = some (.jobj fsA))
    ∧ (∀ (ipapi : Option JVal) (fsB : List (String × JVal)) (r : IPLookup),
         JVal.isFalse ((fsB.lookup "success").getD .jundefined) = false →
         lookupIP ipapi (some (.jobj fsB)) = .ok r →
         r.sources.lookup "ipwho.is" = some (.jobj fsB)) := by
  constructor
  · intro fsA ipwho r h
    unfold lookupIP at h
    dsimp only at h
    rcases ha : applyIpApi (.jobj fsA) ({} : IPLookup) with e | out1 <;> rw [ha] at h
    · exact Except.noConfusion h
    · dsimp only at h
      have hsrc := applyIpApi_sources _ _ _ ha
      cases ipwho with
      | none =>
        injection h with h'
        subst h'
        rw [hsrc]
        exact lookup_setKey_self _ _ _
      | some w =>
        rcases applyIpWho_sources w out1 r h with h2 | h2 <;> rw [h2, hsrc]
        · exact lookup_setKey_self _ _ _
        · rw [lookup_setKey_other _ _ _ _ (by decide)]
          exact lookup_setKey_self _ _ _
  · intro ipapi fsB r hs h
    unfold lookupIP at h
    have hg : (JVal.jobj fsB).get "success" = .ok ((fsB.lookup "success").getD .jundefined) := by
      unfold JVal.get
      dsimp only
      cases hfs : fsB.lookup "success" <;> rfl
    rcases hstep : (match ipapi with
                    | none => Except.ok ({} : IPLookup)
                    | some d => applyIpApi d ({} : IPLookup)) with e | out1 <;> rw [hstep] at h
    · exact Except.noConfusion h
    · dsimp only at h
      rw [applyIpWho_sources_applied _ _ _ _ hg hs h]
      exact lookup_setKey_self _ _ _

/-- Witness for C5 (amended): provider A retention at a concrete payload. -/
theorem claim_C5_sources_retention_witness :
    (({ sources := [("ip-api.com", .jobj [("status", .jstr "x")])] } : IPLookup)).sources.lookup
        "ip-api.com" = some (.jobj [("status", .jstr "x")]) :=
  claim_C5_sources_retention.left [("status", .jstr "x")] none _ rfl

theorem jobj_get (fs : List (String × JVal)) (k : String) :
    (JVal.jobj fs).get k = .ok ((fs.lookup k).getD .jundefined) := by
  unfold JVal.get
  dsimp only
  cases fs.lookup k <;> rfl

theorem jobj_optGet (fs : List (String × JVal)) (k : String) :
    (JVal.jobj fs).optGet k = (fs.lookup k).getD .jundefined := by
  unfold JVal.optGet
  dsimp only
  cases fs.lookup k <;> rfl

theorem applyIpApi_notFail (fs : List (String × JVal)) (out : IPLookup)
    (hst : JVal.isStr ((fs.lookup "status").getD .jundefined) "fail" = false) :
    applyIpApi (.jobj fs) out = .ok { out with
      sources := setKey out.sources "ip-api.com" (.jobj fs)
      ip := (JVal.jobj fs).optGet "query"
      city := (JVal.jobj fs).optGet "city"
      region := (JVal.jobj fs).optGet "regionName"
      country := (JVal.jobj fs).optGet "country"
      lat := (JVal.jobj fs).optGet "lat"
      lon := (JVal.jobj fs).optGet "lon"
      isp := (JVal.jobj fs).optGet "isp"
      org := (JVal.jobj fs).optGet "org"
      asn := (JVal.jobj fs).optGet "as"
      reverse := (JVal.jobj fs).optGet "reverse"
      timezone := (JVal.jobj fs).optGet "timezone" } := by
  unfold applyIpApi
  rw [jobj_get]
  dsimp only
  simp only [hst, Bool.false_eq_true, if_false]

theorem applyIpWho_isFalse (fs : List (String × JVal)) (out : IPLookup)
    (hs : JVal.isFalse ((fs.lookup "success").getD .jundefined) = true) :
    applyIpWho (.jobj fs) out = .ok out := by
  unfold applyIpWho
  rw [jobj_get]
  dsimp only
  simp only [hs, if_true]

theorem applyIpWho_notFalse (fs : List (String × JVal)) (out : IPLookup)
    (hs : JVal.isFalse ((fs.lookup "success").getD .jundefined) = false) :
    applyIpWho (.jobj fs) out = .ok { out with
      sources := setKey out.sources "ipwho.is" (.jobj fs)
      ip := jsOr out.ip ((JVal.jobj fs).optGet "ip")
      city := jsOr out.city ((JVal.jobj fs).optGet "city")
      region := jsOr out.region ((JVal.jobj fs).optGet "region")
      country := jsOr out.country ((JVal.jobj fs).optGet "country")
      lat := jsOr out.lat ((JVal.jobj fs).optGet "latitude")
      lon := jsOr out.lon ((JVal.jobj fs).optGet "longitude")
      isp := jsOr out.isp (jsOr (((JVal.jobj fs).optGet "connection").optGet "isp")
        (((JVal.jobj fs).optGet "connection").optGet "org"))
      org := jsOr out.org (((JVal.jobj fs).optGet "connection").optGet "org")
      asn := jsOr out.asn
        (if (((JVal.jobj fs).optGet "connection").optGet "asn").truthy then
           .jstr ("AS" ++ jsToString (((JVal.jobj fs).optGet "connection").optGet "asn"))
         else .jundefined)
      timezone := jsOr out.timezone (((JVal.jobj fs).optGet "timezone").optGet "id") } := by
  unfold applyIpWho
  rw [jobj_get]
  dsimp only
  simp only [hs, Bool.false_eq_true, if_false]

/-- Claim C1: in `lookupIP`'s merge, provider A's (ip-api.com) fields are
applied unconditionally when its fetch is fulfilled and its `status` is not
`'fail'`, and provider B's (ipwho.is) fields only fill fields still falsy
after A.  First conjunct (the claim's precedence law): when A supplies a
non-empty `city` and B a different non-empty `city`, the merged `city` is
A's.  Second conjunct: when A's `city` is empty/absent and B is applied, the
merged `city` is B's. -/
theorem claim_C1_ip_merge_precedence :
    (∀ (fsA fsB : List (String × JVal)) (cityA cityB : String),
       JVal.isStr ((fsA.lookup "status").getD .jundefined) "fail" = false →
       fsA.lookup "city" = some (.jstr cityA) → cityA ≠ "" →
       fsB.lookup "city" = some (.jstr cityB) → cityB ≠ "" → cityA ≠ cityB →
       (lookupIP (some (.jobj fsA)) (some (.jobj fsB))).map IPLookup.city = .ok (.jstr cityA))
    ∧ (∀ (fsA fsB : List (String × JVal)) (cityB : String),
       JVal.isStr ((fsA.lookup "status").getD .jundefined) "fail" = false →
       JVal.truthy ((fsA.lookup "city").getD .jundefined) = false →
       JVal.isFalse ((fsB.lookup "success").getD .jundefined) = false →
       fsB.lookup "city" = some (.jstr cityB) →
       (lookupIP (some (.jobj fsA)) (some (.jobj fsB))).map IPLookup.city = .ok (.jstr cityB)) := by
  constructor
  · intro fsA fsB cityA cityB hst hca hcaNe hcb hcbNe hne
    unfold lookupIP
    dsimp only
    rw [applyIpApi_notFail fsA {} hst]
    dsimp only
    cases hsucc : JVal.isFalse ((fsB.lookup "success").getD .jundefined) with
    | true =>
      rw [applyIpWho_isFalse fsB _ hsucc]
      simp [Except.map, jobj_optGet, hca]
    | false =>
      rw [applyIpWho_notFalse fsB _ hsucc]
      simp [Except.map, jobj_optGet, hca, hcb, jsOr, JVal.truthy, hcaNe]
  · intro fsA fsB cityB hst hfalsy hsucc hcb
    unfold lookupIP
    dsimp only
    rw [applyIpApi_notFail fsA {} hst]
    dsimp only
    rw [applyIpWho_notFalse fsB _ hsucc]
    simp [Except.map, jobj_optGet, hcb, jsOr, hfalsy]

/-- Witness for C1: with A fulfilled as `{status:"success", city:"Paris"}`
and B fulfilled as `{city:"Lyon"}`, the merged city is `"Paris"`. -/
theorem claim_C1_ip_merge_precedence_witness :
    (lookupIP (some (.jobj [("status", .jstr "success"), ("city", .jstr "Paris")]))
        (some (.jobj [("city", .jstr "Lyon")]))).map IPLookup.city = .ok (.jstr "Paris") :=
  claim_C1_ip_merge_precedence.left
    [("status", .jstr "success"), ("city", .jstr "Paris")] [("city", .jstr "Lyon")]
    "Paris" "Lyon" (by decide) rfl (by decide) rfl (by decide) (by decide)

theorem get_error (v : JVal) (k : String) (e : JsErr)
    (h : v.get k = .error e) : e = .typeError := by
  cases v with
  | jobj fields =>
    unfold JVal.get at h
    dsimp only at h
    cases hfs : fields.lookup k <;> rw [hfs] at h <;> exact Except.noConfusion h
  | jnull =>
    unfold JVal.get at h
    injection h with h'
    exact h'.symm
  | jundefined =>
    unfold JVal.get at h
    injection h with h'
    exact h'.symm
  | jbool b => exact Except.noConfusion h
  | jnum n => exact Except.noConfusion h
  | jstr s => exact Except.noConfusion h
  | jarr xs => exact Except.noConfusion h

theorem mapData_error (g : JVal → β) : ∀ (xs : List JVal) (e : JsErr),
    mapData g xs = .error e → e = .typeError := by
  intro xs
  induction xs with
  | nil =>
    intro e h
    exact Except.noConfusion h
  | cons r rs ih =>
    intro e h
    unfold mapData at h
    rcases hg : r.get "data" with e1 | d <;> rw [hg] at h
    · injection h with h'
      subst h'
      exact get_error _ _ _ hg
    · dsimp only at h
      rcases hm : mapData g rs with e2 | ds <;> rw [hm] at h
      · injection h with h'
        subst h'
        exact ih _ hm
      · exact Except.noConfusion h

theorem mapAnswers_error (v : JVal) (g : JVal → β) (e : JsErr)
    (h : mapAnswers v g = .error e) : e = .typeError := by
  cases v <;> unfold mapAnswers at h <;>
    first
      | exact mapData_error _ _ _ h
      | (injection h with h'; exact h'.symm)

theorem parseTXT_error (v : JVal) (e : JsErr) (h : parseTXT v = .error e) :
    e = .typeError := by
  unfold parseTXT at h
  rcases hm : mapAnswers v txtData with e1 | l <;> rw [hm] at h
  · injection h with h'
    subst h'
    exact mapAnswers_error _ _ _ hm
  · exact Except.noConfusion h

theorem lookupDomain_error (domain : String) (env : DomainEnv) (e : JsErr)
    (h : lookupDomain domain env = .error e) : e = .typeError := by
  unfold lookupDomain at h
  dsimp only at h
  rcases h1 : mapAnswers (dohResolve env.a) id with e1 | aL <;> rw [h1] at h
  · injection h with h'
    subst h'
    exact mapAnswers_error _ _ _ h1
  · dsimp only at h
    rcases h2 : mapAnswers (dohResolve env.aaaa) id with e2 | aaaaL <;> rw [h2] at h
    · injection h with h'
      subst h'
      exact mapAnswers_error _ _ _ h2
    · dsimp only at h
      rcases h3 : mapAnswers (dohResolve env.mx) (fun d => mxExec (jsToString d)) with e3 | mxL <;>
        rw [h3] at h
      · injection h with h'
        subst h'
        exact mapAnswers_error _ _ _ h3
      · dsimp only at h
        rcases h4 : mapAnswers (dohResolve env.ns) (fun d => stripTrailingDot (jsToString d)) with
          e4 | nsL <;> rw [h4] at h
        · injection h with h'
          subst h'
          exact mapAnswers_error _ _ _ h4
        · dsimp only at h
          rcases h5 : parseTXT (dohResolve env.txt) with e5 | txtL <;> rw [h5] at h
          · injection h with h'
            subst h'
            exact parseTXT_error _ _ h5
          · dsimp only at h
            rcases h6 : parseTXT (dohResolve env.dmarcTxt) with e6 | dmarcL <;> rw [h6] at h
            · injection h with h'
              subst h'
              exact parseTXT_error _ _ h6
            · exact Except.noConfusion h

/-- Counterexample to claim C3 as stated: `"a@"` does contain an `@` (its
`@`-split has a second segment, the empty string), so by the claim it should
proceed to the Domain Aggregator, but `lookupEmail` rejects it with the
invalid-email failure because the derived domain is empty. -/
theorem claim_C3_counterexample :
    lookupEmail "a@" {} = .error .invalidEmail ∧ '@' ∈ "a@".data :=
  ⟨rfl, by decide⟩

/-- Claim C3 (amended): `lookupEmail` fails with the invalid-email failure
exactly when the `@`-split of the address has no second segment or its
second segment trims (and lower-cases) to the empty string; the outcome of
this validation is independent of every upstream outcome (it happens before
any network call), and no other input produces the invalid-email failure. -/
theorem claim_C3_email_validation (email : String) (env : DomainEnv) :
    lookupEmail email env = .error .invalidEmail ↔
      (match emailSecondSegment email with
       | none => True
       | some seg => jsToLower (jsTrim seg) = "") := by
  unfold lookupEmail
  cases hseg : emailSecondSegment email with
  | none => simp
  | some seg =>
    dsimp only
    by_cases hd : jsToLower (jsTrim seg) = ""
    · simp [hd]
    · rw [if_neg hd]
      rcases hld : lookupDomain (jsToLower (jsTrim seg)) env with e | dom
      · have he := lookupDomain_error _ _ _ hld
        subst he
        dsimp only
        simp [hd]
      · dsimp only
        simp [hd]

/-- Counterexample to claim C6 as stated: for the accepted address
`"u@b@c"`, the substring after the first `@` is `"b@c"`, but the returned
`domain` is the second `@`-split segment `"b"`. -/
theorem claim_C6_counterexample :
    (lookupEmail "u@b@c" {}).map EmailLookup.domain = .ok "b" ∧ ("b" : String) ≠ "b@c" :=
  ⟨rfl, by decide⟩

/-- Claim C6 (amended): for every accepted address, the returned `domain`
equals the second segment of the address's `@`-split (the substring between
the first and second `@`), trimmed and lower-cased. -/
theorem claim_C6_email_domain (email : String) (env : DomainEnv) (seg : String)
    (r : EmailLookup) (hseg : emailSecondSegment email = some seg)
    (h : lookupEmail email env = .ok r) :
    r.domain = jsToLower (jsTrim seg) := by
  unfold lookupEmail at h
  rw [hseg] at h
  dsimp only at h
  by_cases hd : jsToLower (jsTrim seg) = ""
  · rw [if_pos hd] at h
    exact Except.noConfusion h
  · rw [if_neg hd] at h
    rcases hld : lookupDomain (jsToLower (jsTrim seg)) env with e | dom <;> rw [hld] at h
    · exact Except.noConfusion h
    · dsimp only at h
      injection h with h'
      subst h'
      rfl

/-- Witness for C6 (amended): the address `"u@Ex.Com"` yields the domain
`"ex.com"`. -/
theorem claim_C6_email_domain_witness :
    (({ email := "u@Ex.Com", domain := "ex.com", hasMX := false, hasSPF := false,
        hasDMARC := false, dmarcPolicy := none, txtSamples := some [] } : EmailLookup)).domain
      = jsToLower (jsTrim "Ex.Com") :=
  claim_C6_email_domain "u@Ex.Com" {} "Ex.Com" _ rfl rfl

theorem get_ok (x : JVal) (k : String) (hx : x.isNullish = false) :
    ∃ u, x.get k = .ok u := by
  cases x with
  | jnull => exact absurd hx (by simp [JVal.isNullish])
  | jundefined => exact absurd hx (by simp [JVal.isNullish])
  | jobj fields => exact ⟨(fields.lookup k).getD .jundefined, jobj_get fields k⟩
  | jbool b => exact ⟨.jundefined, rfl⟩
  | jnum n => exact ⟨.jundefined, rfl⟩
  | jstr s => exact ⟨.jundefined, rfl⟩
  | jarr xs => exact ⟨.jundefined, rfl⟩

theorem mapData_ok (g : JVal → β) : ∀ xs : List JVal,
    (∀ x ∈ xs, x.isNullish = false) → ∃ ys, mapData g xs = .ok ys := by
  intro xs
  induction xs with
  | nil => exact fun _ => ⟨[], rfl⟩
  | cons r rs ih =>
    intro hall
    obtain ⟨u, hu⟩ := get_ok r "data" (hall r (by simp))
    obtain ⟨ys, hys⟩ := ih (fun x hx => hall x (by simp [hx]))
    refine ⟨g u :: ys, ?_⟩
    unfold mapData
    rw [hu]
    dsimp only
    rw [hys]

theorem mapAnswers_ok (xs : List JVal) (g : JVal → β)
    (h : xs.all (fun x => !x.isNullish) = true) :
    ∃ ys, mapAnswers (.jarr xs) g = .ok ys := by
  apply mapData_ok
  intro x hx
  have := List.all_eq_true.mp h x hx
  simpa using this

theorem dohWellShaped_dest (f : Option JVal) (h : dohWellShaped f = true) :
    ∃ xs, dohResolve f = .jarr xs ∧ xs.all (fun x => !x.isNullish) = true := by
  unfold dohWellShaped at h
  rcases hv : dohResolve f with _ | _ | b | n | s | xs | fl <;> rw [hv] at h <;>
    first
      | exact Bool.noConfusion h
      | exact ⟨xs, rfl, h⟩

/-- Counterexample to claim C2 as stated: a fulfilled DoH response for the A
query whose payload is `{Answer: 1}` (a malformed shape: `Answer` truthy but
not an array) makes `lookupDomain` throw — `dohResolve` returns `1` and
`a.map` is not a function. -/
theorem claim_C2_counterexample :
    lookupDomain "example.com" { a := some (.jobj [("Answer", .jnum 1)]) } =
      .error .typeError :=
  rfl

/-- Claim C2 (amended): `lookupDomain` never throws provided each DoH
response is well-shaped (its resolved answer value is an array without
nullish elements — transport failures, non-success statuses, nullish
payloads and absent/falsy `Answer` fields all resolve to `[]` and qualify);
and in the worst case, when all seven upstream calls fail, it returns the
record with every collection field empty and `rdap` null. -/
theorem claim_C2_domain_failure_policy :
    (∀ (domain : String) (env : DomainEnv),
       dohWellShaped env.a = true → dohWellShaped env.aaaa = true →
       dohWellShaped env.mx = true → dohWellShaped env.ns = true →
       dohWellShaped env.txt = true → dohWellShaped env.dmarcTxt = true →
       ∃ d, lookupDomain domain env = .ok d)
    ∧ (∀ domain : String,
         lookupDomain domain {} =
           .ok { domain := domain, a := some [], aaaa := some [], mx := some [], ns := some [],
                 txt := some [], dmarc := none, spf := some false, rdap := .jnull }) := by
  constructor
  · intro domain env ha haaaa hmx hns htxt hdm
    obtain ⟨xs1, hv1, hall1⟩ := dohWellShaped_dest _ ha
    obtain ⟨ys1, hm1⟩ := mapAnswers_ok xs1 id hall1
    obtain ⟨xs2, hv2, hall2⟩ := dohWellShaped_dest _ haaaa
    obtain ⟨ys2, hm2⟩ := mapAnswers_ok xs2 id hall2
    obtain ⟨xs3, hv3, hall3⟩ := dohWellShaped_dest _ hmx
    obtain ⟨ys3, hm3⟩ := mapAnswers_ok xs3 (fun d => mxExec (jsToString d)) hall3
    obtain ⟨xs4, hv4, hall4⟩ := dohWellShaped_dest _ hns
    obtain ⟨ys4, hm4⟩ := mapAnswers_ok xs4 (fun d => stripTrailingDot (jsToString d)) hall4
    obtain ⟨xs5, hv5, hall5⟩ := dohWellShaped_dest _ htxt
    obtain ⟨ys5, hm5⟩ := mapAnswers_ok xs5 txtData hall5
    obtain ⟨xs6, hv6, hall6⟩ := dohWellShaped_dest _ hdm
    obtain ⟨ys6, hm6⟩ := mapAnswers_ok xs6 txtData hall6
    have hp5 : parseTXT (dohResolve env.txt) = .ok (ys5.filter (· ≠ "")) := by
      unfold parseTXT
      rw [hv5, hm5]
      rfl
    have hp6 : parseTXT (dohResolve env.dmarcTxt) = .ok (ys6.filter (· ≠ "")) := by
      unfold parseTXT
      rw [hv6, hm6]
      rfl
    refine ⟨{ domain := domain,
              a := some (ys1.filter JVal.truthy),
              aaaa := some (ys2.filter JVal.truthy),
              mx := some ys3.reduceOption,
              ns := some (ys4.filter (· ≠ "")),
              txt := some (ys5.filter (· ≠ "")),
              dmarc := (ys6.filter (· ≠ "")).find? (fun t => strContains (jsToLower t) "v=dmarc"),
              spf := some ((ys5.filter (· ≠ "")).any (fun t => strContains (jsToLower t) "v=spf1")),
              rdap := match env.rdap with
                      | some v => v
                      | none => .jnull }, ?_⟩
    unfold lookupDomain
    dsimp only
    rw [hv1, hm1]
    dsimp only
    rw [hv2, hm2]
    dsimp only
    rw [hv3, hm3]
    dsimp only
    rw [hv4, hm4]
    dsimp only
    rw [hp5]
    dsimp only
    rw [hp6]
  · intro domain
    rfl

/-- Witness for C2 (amended): all seven upstream calls failing is a
well-shaped environment, and `lookupDomain` returns a record on it. -/
theorem claim_C2_domain_failure_policy_witness :
    ∃ d, lookupDomain "w.example" {} = .ok d :=
  claim_C2_domain_failure_policy.left "w.example" {} rfl rfl rfl rfl rfl rfl

theorem jsToString_jstr (s : String) : jsToString (.jstr s) = s := by
  simp [jsToString]

theorem noTrailingWs_dest (s : String)
    (h : s.data.getLast?.all (fun c => !jsWs c) = true) :
    ∀ c, s.data.getLast? = some c → jsWs c = false := by
  intro c hc
  rw [hc] at h
  simpa using h

theorem mxExec_eq_grammar (s : String)
    (hlast : ∀ c, s.data.getLast? = some c → jsWs c = false) :
    mxExec s = mxGrammarParse s := by
  unfold mxExec mxGrammarParse
  dsimp only
  by_cases hd : (s.data.takeWhile Char.isDigit).isEmpty
  · simp [hd]
  · by_cases hw : ((s.data.dropWhile Char.isDigit).takeWhile jsWs).isEmpty
    · simp [hd, hw]
    · by_cases hh : ((s.data.dropWhile Char.isDigit).dropWhile jsWs).isEmpty
      · exfalso
        have hrest : s.data.dropWhile Char.isDigit ≠ [] := by
          intro h0
          rw [h0] at hw
          exact hw rfl
        have hall : ∀ x ∈ s.data.dropWhile Char.isDigit, jsWs x := by
          have := List.dropWhile_eq_nil_iff.mp (List.isEmpty_iff.mp hh)
          simpa using this
        have hsplit : s.data.takeWhile Char.isDigit ++ s.data.dropWhile Char.isDigit = s.data :=
          List.takeWhile_append_dropWhile _ _
        have hlast2 : s.data.getLast? = (s.data.dropWhile Char.isDigit).getLast? := by
          conv_lhs => rw [← hsplit]
          exact List.getLast?_append_of_ne_nil _ hrest
        have hg : (s.data.dropWhile Char.isDigit).getLast? =
            some ((s.data.dropWhile Char.isDigit).getLast hrest) :=
          List.getLast?_eq_getLast _ hrest
        have hws := hall _ (List.getLast_mem hrest)
        have hfalse := hlast _ (by rw [hlast2, hg])
        rw [hfalse] at hws
        exact Bool.noConfusion hws
      · by_cases ha : ((s.data.dropWhile Char.isDigit).dropWhile jsWs).all jsDot
        · simp [hd, hw, hh, ha]
        · simp [hd, hw, hh, ha]

theorem mapData_forall2 (g : JVal → β) (answers : List JVal) (datas : List String)
    (h : List.Forall₂ (fun r s => r.get "data" = .ok (.jstr s)) answers datas) :
    mapData g answers = .ok (datas.map (fun s => g (.jstr s))) := by
  induction h with
  | nil => rfl
  | cons h1 h2 ih =>
    unfold mapData
    rw [h1]
    dsimp only
    rw [ih]
    rfl

theorem reduceOption_map_eq_filterMap (f : α → Option β) (l : List α) :
    (l.map f).reduceOption = l.filterMap f := by
  simp [List.reduceOption, List.filterMap_map]

/-- Counterexample to claim C8 as stated: the MX answer data `"10  "` does
not match the claim's grammar (after the digits and the whitespace there is
no hostname), so by the claim it is dropped — `mxGrammarParse` returns
`none` — yet `lookupDomain` keeps `{priority: 10, exchange: " "}`: the
regex `/^(\d+)\s+(.+)\.?$/` backtracks `\s+` by one character and captures
the final space as `m[2]`. -/
theorem claim_C8_counterexample :
    (lookupDomain "example.com" envMX8bad).map DomainLookup.mx = .ok (some [⟨10, " "⟩]) ∧
    mxGrammarParse "10  " = none :=
  ⟨rfl, rfl⟩

/-- Claim C8 (amended): for every list of DoH MX answers whose `data`
strings do not end in whitespace, `lookupDomain`'s parsed `mx` list is, in
server order, the grammar parse of each answer's `data` string (one or more
digits, whitespace, then a non-empty hostname with trailing dot stripped;
non-matching answers are dropped).  The second conjunct is the claim's
concrete round trip: answers `[{data:"10 mail.example.com."}]` parse to
`[{priority:10, exchange:"mail.example.com"}]`. -/
theorem claim_C8_mx_parsing :
    (∀ (domain : String) (env : DomainEnv) (answers : List JVal) (datas : List String)
       (d : DomainLookup),
       dohResolve env.mx = .jarr answers →
       List.Forall₂ (fun r s => r.get "data" = .ok (.jstr s)) answers datas →
       (∀ s ∈ datas, s.data.getLast?.all (fun c => !jsWs c) = true) →
       lookupDomain domain env = .ok d →
       d.mx = some (datas.filterMap mxGrammarParse))
    ∧ (lookupDomain "example.com" envMX8).map DomainLookup.mx =
        .ok (some [⟨10, "mail.example.com"⟩]) := by
  constructor
  · intro domain env answers datas d hres hfa hlast hok
    unfold lookupDomain at hok
    dsimp only at hok
    rcases h1 : mapAnswers (dohResolve env.a) id with e1 | aL <;> rw [h1] at hok
    · exact Except.noConfusion hok
    · dsimp only at hok
      rcases h2 : mapAnswers (dohResolve env.aaaa) id with e2 | aaaaL <;> rw [h2] at hok
      · exact Except.noConfusion hok
      · dsimp only at hok
        have hmx : mapAnswers (dohResolve env.mx) (fun v => mxExec (jsToString v)) =
            .ok (datas.map (fun s => mxExec s)) := by
          rw [hres]
          have hm := mapData_forall2 (fun v => mxExec (jsToString v)) answers datas hfa
          have heq : datas.map (fun s => mxExec (jsToString (.jstr s))) =
              datas.map (fun s => mxExec s) :=
            List.map_congr_left (fun a _ => by rw [jsToString_jstr])
          unfold mapAnswers
          dsimp only
          rw [hm]
          exact congrArg Except.ok heq
        rw [hmx] at hok
        dsimp only at hok
        rcases h4 : mapAnswers (dohResolve env.ns) (fun v => stripTrailingDot (jsToString v)) with
          e4 | nsL <;> rw [h4] at hok
        · exact Except.noConfusion hok
        · dsimp only at hok
          rcases h5 : parseTXT (dohResolve env.txt) with e5 | txtL <;> rw [h5] at hok
          · exact Except.noConfusion hok
          · dsimp only at hok
            rcases h6 : parseTXT (dohResolve env.dmarcTxt) with e6 | dmarcL <;> rw [h6] at hok
            · exact Except.noConfusion hok
            · dsimp only at hok
              injection hok with hok'
              subst hok'
              show some ((datas.map (fun s => mxExec s)).reduceOption) = _
              rw [List.map_congr_left
                    (fun s hs => mxExec_eq_grammar s (noTrailingWs_dest s (hlast s hs))),
                  reduceOption_map_eq_filterMap]
  · rfl

/-- Witness for C8: the claim's concrete MX answer, via the general
statement. -/
theorem claim_C8_mx_parsing_witness :
    (({ domain := "example.com", a := some [], aaaa := some [],
        mx := some [⟨10, "mail.example.com"⟩], ns := some [], txt := some [], dmarc := none,
        spf := some false, rdap := .jnull } : DomainLookup)).mx =
      some (["10 mail.example.com."].filterMap mxGrammarParse) :=
  claim_C8_mx_parsing.left "example.com" envMX8
    [.jobj [("data", .jstr "10 mail.example.com.")]] ["10 mail.example.com."] _
    rfl (.cons rfl .nil) (by decide) rfl

theorem pTagExtract_append (pre l : List Char)
    (h : ∀ x ∈ pre, ¬(x = 'p' ∨ x = 'P')) :
    pTagExtract (pre ++ l) = pTagExtract l := by
  induction pre with
  | nil => rfl
  | cons c cs ih =>
    have hc := h c (by simp)
    simp only [List.cons_append, pTagExtract]
    rw [if_neg hc]
    exact ih (fun x hx => h x (by simp [hx]))

theorem pTagExtract_none : ∀ l : List Char, (∀ x ∈ l, ¬(x = 'p' ∨ x = 'P')) →
    pTagExtract l = none := by
  intro l
  induction l with
  | nil => intro _; rfl
  | cons c cs ih =>
    intro h
    simp only [pTagExtract]
    rw [if_neg (h c (by simp))]
    exact ih (fun x hx => h x (by simp [hx]))

theorem takeWhile_all_append (p : Char → Bool) (v post : List Char)
    (hv : ∀ x ∈ v, p x = true)
    (hpost : post = [] ∨ ∃ y ys, post = y :: ys ∧ p y = false) :
    (v ++ post).takeWhile p = v := by
  induction v with
  | nil =>
    rcases hpost with h | ⟨y, ys, rfl, hy⟩
    · rw [h]
      rfl
    · simp [List.takeWhile_cons, hy]
  | cons a as ih =>
    have ha := hv a (by simp)
    simp [List.takeWhile_cons, ha, ih (fun x hx => hv x (by simp [hx]))]

theorem pTagExtract_hit (c : Char) (v post : List Char)
    (hc : c = 'p' ∨ c = 'P') (hv : v ≠ []) (hvall : ∀ x ∈ v, pTagValid x = true)
    (hpost : post = [] ∨ ∃ y ys, post = y :: ys ∧ pTagValid y = false) :
    pTagExtract (c :: '=' :: (v ++ post)) = some (String.mk v) := by
  have h1 : pTagExtract (c :: '=' :: (v ++ post)) =
      if c = 'p' ∨ c = 'P' then
        (if ('=' : Char) = '=' then
           (if ((v ++ post).takeWhile pTagValid).isEmpty then pTagExtract ('=' :: (v ++ post))
            else some (String.mk ((v ++ post).takeWhile pTagValid)))
         else pTagExtract ('=' :: (v ++ post)))
      else pTagExtract ('=' :: (v ++ post)) := rfl
  have hvE : v.isEmpty = false := by
    cases v with
    | nil => exact absurd rfl hv
    | cons a as => rfl
  rw [h1, if_pos hc, if_pos rfl, takeWhile_all_append _ _ _ hvall hpost]
  simp [hvE]

/-- Claim C7: `dmarcPolicy` is the value of the first case-insensitive `p=`
occurrence in the DMARC TXT value whose value (the maximal following run of
characters that are neither `;` nor whitespace) is non-empty; it is null
when no such occurrence exists and null when `dmarc` is absent; and the
claim's example DMARC record yields the policy `"reject"` through
`lookupEmail`. -/
theorem claim_C7_dmarc_policy :
    (∀ (s : String) (pre v post : List Char) (c : Char),
       s.data = pre ++ c :: '=' :: (v ++ post) →
       (c = 'p' ∨ c = 'P') →
       (∀ x ∈ pre, ¬(x = 'p' ∨ x = 'P')) →
       v ≠ [] →
       (∀ x ∈ v, pTagValid x = true) →
       (post = [] ∨ ∃ y ys, post = y :: ys ∧ pTagValid y = false) →
       extractDmarcPolicy (some s) = some (String.mk v))
    ∧ (∀ s : String, (∀ x ∈ s.data, ¬(x = 'p' ∨ x = 'P')) →
         extractDmarcPolicy (some s) = none)
    ∧ extractDmarcPolicy none = none
    ∧ (lookupEmail "x@example.com" envDM7).map EmailLookup.dmarcPolicy = .ok (some "reject") := by
  refine ⟨?_, ?_, rfl, rfl⟩
  · intro s pre v post c hdec hc hpre hv hvall hpost
    have hne : s ≠ "" := by
      intro h0
      subst h0
      have h1 : pre ++ c :: '=' :: (v ++ post) = ([] : List Char) := hdec.symm
      simp at h1
    simp only [extractDmarcPolicy]
    rw [if_neg hne, hdec, pTagExtract_append pre _ hpre,
        pTagExtract_hit c v post hc hv hvall hpost]
  · intro s hs
    simp only [extractDmarcPolicy]
    by_cases h0 : s = ""
    · rw [if_pos h0]
    · rw [if_neg h0]
      exact pTagExtract_none s.data hs

/-- Witness for C7: the claim's example DMARC value decomposes around its
`p=` tag and yields the policy `"reject"`. -/
theorem claim_C7_dmarc_policy_witness :
    extractDmarcPolicy (some "v=DMARC1; p=reject; rua=mailto:x@example.com") = some "reject" :=
  claim_C7_dmarc_policy.left "v=DMARC1; p=reject; rua=mailto:x@example.com"
    "v=DMARC1; ".data "reject".data "; rua=mailto:x@example.com".data 'p'
    (by decide) (Or.inl rfl) (by decide) (by decide) (by decide)
    (Or.inr ⟨';', " rua=mailto:x@example.com".data, by decide, by decide⟩)
